import Mathlib

/-!
Shallow embedding of the `tune` repository (rust) for verification of its
natural-language specification.

The embedding covers:
* `src/src/midi.rs` — MIDI channel-message parsing (`ChannelMessage::from_raw_message`);
* `src/tune-cli/src/midi.rs` — raw note-on/note-off message construction;
* `src/src/tuner/midi.rs` — the AOT/JIT MIDI tuning dispatchers
  (`AotMidiTuner`, `JitMidiTuner`, `MidiTarget`);
* `src/microwave/src/magnetron/mod.rs` — the waveform compiler
  (`WaveformSpec::use_creator`);
* `src/microwave/src/magnetron/source.rs` — the LF-source expression language,
  its per-block evaluator and its deserializer.

Bytes and machine integers are modelled as `Nat`/`Int` with explicit `% 2^w`
where overflow matters; `f64` control-rate arithmetic is modelled over `ℚ`
(the claims under study are exact-arithmetic claims about the algorithms, not
about rounding).  Fallible operations return `Option`/`Except`.
-/

namespace Tune

/-! ## `src/src/midi.rs` -/

/-- `NOTE_OFF` status-nibble constant. -/
def NOTE_OFF : Nat := 0b1000
/-- `NOTE_ON` status-nibble constant. -/
def NOTE_ON : Nat := 0b1001
/-- `POLYPHONIC_KEY_PRESSURE` status-nibble constant. -/
def POLYPHONIC_KEY_PRESSURE : Nat := 0b1010
/-- `CONTROL_CHANGE` status-nibble constant. -/
def CONTROL_CHANGE : Nat := 0b1011
/-- `PROGRAM_CHANGE` status-nibble constant. -/
def PROGRAM_CHANGE : Nat := 0b1100
/-- `CHANNEL_PRESSURE` status-nibble constant. -/
def CHANNEL_PRESSURE : Nat := 0b1101
/-- `PITCH_BEND_CHANGE` status-nibble constant. -/
def PITCH_BEND_CHANGE : Nat := 0b1110

/-- `ChannelMessageType` from `src/src/midi.rs`.  Byte-sized payloads are
`Nat` (u8) and the pitch-bend value is `Nat` (u32). -/
inductive ChannelMessageType where
  | NoteOff (key velocity : Nat)
  | NoteOn (key velocity : Nat)
  | PolyphonicKeyPressure (key pressure : Nat)
  | ControlChange (controller value : Nat)
  | ProgramChange (program : Nat)
  | ChannelPressure (pressure : Nat)
  | PitchBendChange (value : Nat)
  deriving DecidableEq, Repr

/-- `ChannelMessage` from `src/src/midi.rs`. -/
structure ChannelMessage where
  channel : Nat
  message_type : ChannelMessageType
  deriving DecidableEq, Repr

namespace ChannelMessage

/-- `ChannelMessage::from_raw_message` from `src/src/midi.rs`: parse a raw
byte slice into a channel message.  All indexing goes through `List.get?`
(the Rust code uses `slice::get` with `?`). -/
def from_raw_message (message : List Nat) : Option ChannelMessage := do
  let status_byte ← message.get? 0
  let channel := status_byte % 16
  let action := status_byte / 16
  let message_type ←
    if action = NOTE_OFF then do
      let key ← message.get? 1
      let velocity ← message.get? 2
      pure (ChannelMessageType.NoteOff key velocity)
    else if action = NOTE_ON then do
      let key ← message.get? 1
      let velocity ← message.get? 2
      pure (ChannelMessageType.NoteOn key velocity)
    else if action = POLYPHONIC_KEY_PRESSURE then do
      let key ← message.get? 1
      let pressure ← message.get? 2
      pure (ChannelMessageType.PolyphonicKeyPressure key pressure)
    else if action = CONTROL_CHANGE then do
      let controller ← message.get? 1
      let value ← message.get? 2
      pure (ChannelMessageType.ControlChange controller value)
    else if action = PROGRAM_CHANGE then do
      let program ← message.get? 1
      pure (ChannelMessageType.ProgramChange program)
    else if action = CHANNEL_PRESSURE then do
      let pressure ← message.get? 1
      pure (ChannelMessageType.ChannelPressure pressure)
    else if action = PITCH_BEND_CHANGE then do
      let d1 ← message.get? 1
      let d2 ← message.get? 2
      pure (ChannelMessageType.PitchBendChange (d1 + d2 * 128))
    else
      none
  pure { channel := channel, message_type := message_type }

end ChannelMessage

/-! ## `src/tune-cli/src/midi.rs` -/

namespace Cli

/-- `channel_message` from `src/tune-cli/src/midi.rs`:
`prefix << 4 | channel_nr` on u8. -/
def channel_message (pre channel_nr : Nat) : Nat :=
  ((pre <<< 4) ||| channel_nr) % 256

/-- `note_off` from `src/tune-cli/src/midi.rs`. -/
def note_off (channel key velocity : Nat) : List Nat :=
  [channel_message NOTE_OFF channel, key, velocity]

/-- `note_on` from `src/tune-cli/src/midi.rs`. -/
def note_on (channel key velocity : Nat) : List Nat :=
  [channel_message NOTE_ON channel, key, velocity]

end Cli

/-! ## `src/src/tuner/midi.rs`

The tuner partition algorithms (`AotTuner::apply_*`, `JitTuner::register_key`
in `src/tuner/mod.rs`), the `mts`, `note` and `pitch` modules are not under
`src/`; only their callers are.  Those parts are modelled from the spec and
marked as such; the dispatch logic below them is embedded from the source. -/

/-- Modelled from the spec: a `Ratio` (`crate::pitch::Ratio`, module not under
`src/`) represented by its value in semitones, as an exact rational. -/
abbrev Ratio : Type := ℚ

/-- Modelled from the spec: `Ratio::as_semitones`. -/
def Ratio.as_semitones (r : Ratio) : ℚ := r

/-- Modelled from the spec: a `Note` (`crate::note::Note`, module not under
`src/`) represented by its signed MIDI-number coordinate. -/
abbrev Note : Type := ℤ

/-- Modelled from the spec: `Note::checked_midi_number` returns the note's
MIDI number when it lies in the valid MIDI range `0..128`. -/
def Note.checked_midi_number (n : Note) : Option Nat :=
  if 0 ≤ (n : ℤ) ∧ (n : ℤ) < 128 then some (n : ℤ).toNat else none

/-- Modelled from the spec: a note letter A..G♯ — `Note::letter_and_octave().0`
identifies the pitch class of the note's MIDI number. -/
abbrev NoteLetter : Type := Fin 12

/-- Modelled from the spec: the pitch class of a note. -/
def Note.letter (n : Note) : NoteLetter :=
  ⟨((n : ℤ) % 12).toNat % 12, Nat.mod_lt _ (by decide)⟩

/-- `ChannelMessageType::in_channel` (in the repository but not under `src/`),
modelled from the spec's MIDI wire format: a channel message can be formed
exactly when the channel number fits the 4-bit MIDI channel field. -/
def ChannelMessageType.in_channel (mt : ChannelMessageType) (channel : Nat) :
    Option ChannelMessage :=
  if channel < 16 then some ⟨channel, mt⟩ else none

/-- `ScaleOctaveTuningFormat` from the `mts` module (option payload carried
through the dispatcher unchanged). -/
inductive ScaleOctaveTuningFormat where
  | OneByte
  | TwoByte
  deriving DecidableEq, Repr

/-- The messages handed to a `MidiTunerMessageHandler`
(`MidiTunerMessageVariant` in `src/src/tuner/midi.rs`); sysex payloads carry
the data they were built from. -/
inductive MidiTunerMessage where
  | channel (msg : ChannelMessage)
  | scaleOctaveTuning (device_id : Nat) (channel : Nat)
      (format : ScaleOctaveTuningFormat) (tuning : NoteLetter → Ratio)
  | singleNoteTuningChange (device_id : Nat) (tuning_program : Nat)
      (changes : List (Note × ℚ))

/-- Modelled from the spec: `mts::tuning_program_change(channel, program)`
produces the RPN message sequence selecting `program` on `channel`
(cf. `rpn_message` in `src/tune-cli/src/midi.rs`: three control-change
messages 0x65/0x64/0x06). -/
def tuning_program_change (channel program : Nat) : List MidiTunerMessage :=
  [ MidiTunerMessage.channel ⟨channel, ChannelMessageType.ControlChange 0x65 0⟩,
    MidiTunerMessage.channel ⟨channel, ChannelMessageType.ControlChange 0x64 3⟩,
    MidiTunerMessage.channel ⟨channel, ChannelMessageType.ControlChange 0x06 program⟩ ]

/-- Modelled from the spec: `mts::channel_fine_tuning(channel, detuning)`
produces the RPN fine-tuning message sequence for `channel`. -/
def channel_fine_tuning (channel : Nat) (detuning : Ratio) : List MidiTunerMessage :=
  [ MidiTunerMessage.channel ⟨channel, ChannelMessageType.ControlChange 0x65 0⟩,
    MidiTunerMessage.channel ⟨channel, ChannelMessageType.ControlChange 0x64 1⟩,
    MidiTunerMessage.channel ⟨channel,
      ChannelMessageType.ControlChange 0x06 (Int.toNat (64 + (detuning.as_semitones * 64).floor))⟩ ]

/-- `pitch_bend_message` from `src/src/tuner/midi.rs`:
`(detuning.as_semitones() / 2.0 * 8192.0) as i16`, the saturating
float-to-`i16` cast made explicit, reinterpreted into the message's value
field as in the source. -/
def pitch_bend_message (detuning : Ratio) : ChannelMessageType :=
  ChannelMessageType.PitchBendChange
    (Int.toNat (max (-32768) (min 32767 (Rat.floor (detuning.as_semitones / 2 * 8192)))))

/-- `MidiTarget` from `src/src/tuner/midi.rs`; the handler is modelled by
accumulating the handed messages, so operations return the message list. -/
structure MidiTarget where
  first_channel : Nat
  num_channels : Nat
  deriving DecidableEq, Repr

namespace MidiTarget

/-- `MidiTarget::check_num_channels`. -/
def check_num_channels (t : MidiTarget) (num_channels_to_check : Nat) :
    Except Nat Unit :=
  if num_channels_to_check > t.num_channels then
    Except.error num_channels_to_check
  else
    Except.ok ()

/-- `MidiTarget::midi_channel`: `(tuner_channel + first_channel) % 16` (the
`u8` arithmetic wraps mod 256, and `16 ∣ 256`, so plain `% 16` is exact). -/
def midi_channel (t : MidiTarget) (tuner_channel : Nat) : Nat :=
  (tuner_channel + t.first_channel) % 16

/-- `MidiTarget::tuning_program`: `(tuner_channel + first_tuning_program) % 128`. -/
def tuning_program (t : MidiTarget) (tuner_channel first_tuning_program : Nat) : Nat :=
  (tuner_channel + first_tuning_program) % 128

/-- `MidiTarget::send`: wrap the message type in the mapped MIDI channel and
hand it to the handler when the channel is valid. -/
def send (t : MidiTarget) (message : ChannelMessageType) (tuner_channel : Nat) :
    List MidiTunerMessage :=
  match message.in_channel (t.midi_channel tuner_channel) with
  | some channel_message => [MidiTunerMessage.channel channel_message]
  | none => []

/-- `MidiTarget::send_monophonic_message`: broadcast to every tuner channel
`0, …, num_channels - 1` in increasing order. -/
def send_monophonic_message (t : MidiTarget) (message_type : ChannelMessageType) :
    List MidiTunerMessage :=
  (List.range t.num_channels).flatMap (fun channel => t.send message_type channel)

end MidiTarget

/-- Modelled from the spec: the per-channel detuning data computed by
`AotTuner::apply_full_keyboard_tuning` (module `tuner/mod.rs`, not under
`src/`): a list of single-note tuning changes, each a key together with its
detuning from the key's standard pitch. -/
abbrev FullKeyboardDetuning : Type := List (Note × Ratio)

/-- Modelled from the spec: `FullKeyboardDetuning::to_mts_format` renders a
Single Note Tuning Change sysex message for the given options. -/
def FullKeyboardDetuning.to_mts_format (d : FullKeyboardDetuning)
    (device_id tuning_program : Nat) : MidiTunerMessage :=
  MidiTunerMessage.singleNoteTuningChange device_id tuning_program d

/-- Modelled from the spec: the per-channel detuning data computed by
`AotTuner::apply_octave_based_tuning`: one detuning per note letter. -/
abbrev ScaleOctaveTuning : Type := NoteLetter → Ratio

/-- Modelled from the spec: `ScaleOctaveTuning::to_mts_format` renders a
Scale/Octave Tuning sysex message for the given options. -/
def ScaleOctaveTuning.to_mts_format (t : ScaleOctaveTuning)
    (device_id channel : Nat) (format : ScaleOctaveTuningFormat) : MidiTunerMessage :=
  MidiTunerMessage.scaleOctaveTuning device_id channel format t

/-- `AotMidiTuner` from `src/src/tuner/midi.rs`; the `AotTuner` key↔channel
map computed by the not-under-`src/` partition algorithms is carried opaquely
as `T`. -/
structure AotMidiTuner (T : Type) where
  target : MidiTarget
  tuner : T

namespace AotMidiTuner

/-- `AotMidiTuner::single_note_tuning_change` from `src/src/tuner/midi.rs`.
The `(tuner, detunings)` pair produced by
`AotTuner::apply_full_keyboard_tuning` (not under `src/`) is taken as input;
the handler is modelled by returning the handed messages alongside `Self`. -/
def single_note_tuning_change (target : MidiTarget) (tuner : T)
    (detunings : List FullKeyboardDetuning) (device_id first_tuning_program : Nat) :
    Except Nat (AotMidiTuner T × List MidiTunerMessage) :=
  match target.check_num_channels detunings.length with
  | Except.error n => Except.error n
  | Except.ok _ =>
      Except.ok (⟨target, tuner⟩,
        detunings.enum.flatMap (fun p =>
          let midi_channel := target.midi_channel p.1
          let tuning_program := target.tuning_program p.1 first_tuning_program
          tuning_program_change midi_channel tuning_program ++
            [p.2.to_mts_format device_id tuning_program]))

/-- `AotMidiTuner::scale_octave_tuning` from `src/src/tuner/midi.rs`. -/
def scale_octave_tuning (target : MidiTarget) (tuner : T)
    (detunings : List ScaleOctaveTuning) (device_id : Nat)
    (format : ScaleOctaveTuningFormat) :
    Except Nat (AotMidiTuner T × List MidiTunerMessage) :=
  match target.check_num_channels detunings.length with
  | Except.error n => Except.error n
  | Except.ok _ =>
      Except.ok (⟨target, tuner⟩,
        detunings.enum.flatMap (fun p =>
          let midi_channel := target.midi_channel p.1
          [p.2.to_mts_format device_id midi_channel format]))

/-- `AotMidiTuner::channel_fine_tuning` from `src/src/tuner/midi.rs`. -/
def channel_fine_tuning (target : MidiTarget) (tuner : T)
    (detunings : List Ratio) :
    Except Nat (AotMidiTuner T × List MidiTunerMessage) :=
  match target.check_num_channels detunings.length with
  | Except.error n => Except.error n
  | Except.ok _ =>
      Except.ok (⟨target, tuner⟩,
        detunings.enum.flatMap (fun p =>
          Tune.channel_fine_tuning (target.midi_channel p.1) p.2))

/-- `AotMidiTuner::pitch_bend` from `src/src/tuner/midi.rs`.  The source
`unwrap`s `in_channel`, which cannot fail because `midi_channel < 16`. -/
def pitch_bend (target : MidiTarget) (tuner : T)
    (detunings : List Ratio) :
    Except Nat (AotMidiTuner T × List MidiTunerMessage) :=
  match target.check_num_channels detunings.length with
  | Except.error n => Except.error n
  | Except.ok _ =>
      Except.ok (⟨target, tuner⟩,
        detunings.enum.flatMap (fun p =>
          match (pitch_bend_message p.2).in_channel (target.midi_channel p.1) with
          | some m => [MidiTunerMessage.channel m]
          | none => []))

end AotMidiTuner

/-- `RegisterKeyResult` from `src/src/tuner/mod.rs` (declared there, consumed
in `src/src/tuner/midi.rs`): the outcome of `JitTuner::register_key`. -/
inductive RegisterKeyResult where
  | Accepted (channel : Nat) (stopped_note : Option Note) (started_note : Note)
      (detuning : Ratio)
  | Rejected

/-- `MidiTuningCreator` from `src/src/tuner/midi.rs`.  The
`HashMap<usize, ScaleOctaveTuning>` with `entry(..).or_default()` is modelled
as a total map defaulting to the default (unison) octave tuning. -/
inductive MidiTuningCreator where
  | SingleNoteTuningChange (device_id first_tuning_program : Nat)
  | ScaleOctaveTuning (device_id : Nat) (format : ScaleOctaveTuningFormat)
      (octave_tunings : Nat → ScaleOctaveTuning)
  | ChannelFineTuning
  | PitchBend

namespace MidiTuningCreator

/-- `MidiTuningCreator::create` from `src/src/tuner/midi.rs`: emit the
tuning-update message(s) for `tuner_channel`, updating the creator's state.
The sysex constructors of the `mts` module (not under `src/`) are the
spec-modelled `to_mts_format`s above, which always succeed. -/
def create (creator : MidiTuningCreator) (target : MidiTarget)
    (tuner_channel : Nat) (note : Note) (detuning : Ratio) :
    List MidiTunerMessage × MidiTuningCreator :=
  let midi_channel := target.midi_channel tuner_channel
  match creator with
  | SingleNoteTuningChange device_id first_tuning_program =>
      let tuning_program := target.tuning_program tuner_channel first_tuning_program
      (tuning_program_change midi_channel tuning_program ++
        [FullKeyboardDetuning.to_mts_format [(note, detuning)] device_id tuning_program],
        creator)
  | ScaleOctaveTuning device_id format octave_tunings =>
      let octave_tuning := octave_tunings tuner_channel
      let updated := fun l => if l = note.letter then detuning else octave_tuning l
      ([ScaleOctaveTuning.to_mts_format updated device_id midi_channel format],
        ScaleOctaveTuning device_id format
          (fun ch => if ch = tuner_channel then updated else octave_tunings ch))
  | ChannelFineTuning => (channel_fine_tuning midi_channel detuning, creator)
  | PitchBend =>
      (match (pitch_bend_message detuning).in_channel midi_channel with
        | some m => [MidiTunerMessage.channel m]
        | none => [],
        creator)

end MidiTuningCreator

/-- `JitMidiTuner` from `src/src/tuner/midi.rs`; the `JitTuner` pool state
(not under `src/`) is left out — its `register_key` outcome is an input to
`note_on`. -/
structure JitMidiTuner where
  target : MidiTarget
  midi_tuning_creator : MidiTuningCreator

namespace JitMidiTuner

/-- `JitMidiTuner::note_on` from `src/src/tuner/midi.rs`, with the outcome of
`self.tuner.register_key(key, pitch)` passed in as `r`: on acceptance, hand
over (1) a note-off for the stopped note when one was stopped and has a valid
MIDI number, (2) the tuning-update message(s) for the allocated channel, and
(3) a note-on for the started note when it has a valid MIDI number. -/
def note_on (s : JitMidiTuner) (r : RegisterKeyResult) (velocity : Nat) :
    List MidiTunerMessage × JitMidiTuner :=
  match r with
  | RegisterKeyResult.Accepted channel stopped_note started_note detuning =>
      let off_msgs :=
        match stopped_note.bind Note.checked_midi_number with
        | some stopped => s.target.send (ChannelMessageType.NoteOff stopped velocity) channel
        | none => []
      let (tuning_msgs, creator) :=
        s.midi_tuning_creator.create s.target channel started_note detuning
      let on_msgs :=
        match started_note.checked_midi_number with
        | some started => s.target.send (ChannelMessageType.NoteOn started velocity) channel
        | none => []
      (off_msgs ++ tuning_msgs ++ on_msgs, { s with midi_tuning_creator := creator })
  | RegisterKeyResult.Rejected => ([], s)

end JitMidiTuner

/-! ## `src/microwave/src/magnetron/mod.rs` — the waveform compiler

`Creator`, `Stage` and `EnvelopeSpec` live in the `magnetron` support crate,
which is not under `src/`; stage compilation is abstracted by the functions
`stage_uc` (for `StageSpec::use_creator`) and `env_uc` (for
`EnvelopeSpec::use_creator`), both closed over the `Creator`.  The envelope
registry `HashMap<String, EnvelopeSpec>` is modelled as an association list
looked up by key. -/

namespace Magnetron

/-- `WaveformSpec` from `src/microwave/src/magnetron/mod.rs`: name, referenced
envelope name, and the ordered stage list (stage specs kept opaque as `A`). -/
structure WaveformSpec (A : Type) where
  name : String
  envelope : String
  stages : List A

/-- `WaveformSpec::use_creator` from `src/microwave/src/magnetron/mod.rs`:
compile the internal stages in list order, look the envelope up in the
registry (warning on a miss), and append the compiled envelope stage when
present.  Returns the compiled stages together with the emitted warnings. -/
def WaveformSpec.use_creator {A E S : Type} (w : WaveformSpec A)
    (stage_uc : A → S) (env_uc : E → S) (envelopes : List (String × E)) :
    List S × List String :=
  let internal_stages := w.stages.map stage_uc
  let envelope := envelopes.lookup w.envelope
  let warnings :=
    match envelope with
    | none => ["Unknown envelope " ++ w.envelope]
    | some _ => []
  let external_stages := envelope.toList.map env_uc
  (internal_stages ++ external_stages, warnings)

end Magnetron

/-! ## `src/microwave/src/magnetron/source.rs` — the LF-source language

An `LfSource` is compiled by `use_creator` into an `Automation` closure that
is evaluated once per control block against an `AutomationContext`.  The
closure's only mutable state is the phase captured by each `Oscillator` node,
so compilation followed by one block evaluation is embedded as a function
from the expression tree and the context to the produced scalar and the tree
with updated phases.  `f64` is modelled as `ℚ`;`rem_euclid(1.0)` is
`Int.fract`.  The waveform functions of the `functions` module (not under
`src/`) are abstracted as `fns : OscillatorKind → ℚ → ℚ`. -/

namespace Magnetron

/-- `OscillatorKind` from `src/microwave/src/magnetron/oscillator.rs`. -/
inductive OscillatorKind where
  | Sin
  | Sin3
  | Triangle
  | Square
  | Sawtooth
  deriving DecidableEq, Repr

/-- `Property` from `src/microwave/src/magnetron/source.rs`. -/
inductive Property where
  | Velocity
  | KeyPressure
  deriving DecidableEq, Repr

/-- `LfSourceUnit` from `src/microwave/src/magnetron/source.rs`. -/
inductive LfSourceUnit where
  | WaveformPitch
  | Wavelength
  deriving DecidableEq, Repr

mutual

/-- `LfSource` from `src/microwave/src/magnetron/source.rs`: a float value, a
unit expression, or a boxed nested expression.  `C` is the controller type. -/
inductive LfSource (C : Type) where
  | Value (v : ℚ)
  | Unit (u : LfSourceUnit)
  | Expr (e : LfSourceExpr C)

/-- `LfSourceExpr` from `src/microwave/src/magnetron/source.rs`. -/
inductive LfSourceExpr (C : Type) where
  | Add (a b : LfSource C)
  | Mul (a b : LfSource C)
  | Oscillator (kind : OscillatorKind) (phase : ℚ)
      (frequency baseline amplitude : LfSource C)
  | Envelope (name : String) (from_ to_ : LfSource C)
  | Time (start_ end_ from_ to_ : LfSource C)
  | Property (kind : Property) (from_ to_ : LfSource C)
  | Control (controller : C) (from_ to_ : LfSource C)

end

/-- `LfSourceExpr::wrap` from `src/microwave/src/magnetron/source.rs`. -/
def LfSourceExpr.wrap {C : Type} (e : LfSourceExpr C) : LfSource C :=
  LfSource.Expr e

/-- `LfSourceUnit::wrap` from `src/microwave/src/magnetron/source.rs`. -/
def LfSourceUnit.wrap {C : Type} (u : LfSourceUnit) : LfSource C :=
  LfSource.Unit u

/-- `AutomationContext` from `src/microwave/src/magnetron/mod.rs` together
with the `WaveformProperties` it exposes: everything one control-block
evaluation of an automation reads.  The named-envelope registry and the
controller storage are exposed as the value functions the evaluation uses. -/
structure AutomationContext (C : Type) where
  pitch : ℚ
  pitch_bend : ℚ
  secs_since_pressed : ℚ
  velocity : ℚ
  pressure : ℚ
  render_window_secs : ℚ
  envelope_value : String → ℚ
  controller_value : C → ℚ

mutual

/-- The compiled automation of an `LfSource`
(`<&LfSource as Spec>::use_creator`, `src/microwave/src/magnetron/source.rs`)
evaluated for one control block: returns the produced scalar and the source
tree with every oscillator phase advanced, exactly as the closures' captured
`phase` state advances. -/
def LfSource.read_block {C : Type} (fns : OscillatorKind → ℚ → ℚ)
    (context : AutomationContext C) : LfSource C → ℚ × LfSource C
  | LfSource.Value constant => (constant, LfSource.Value constant)
  | LfSource.Unit u =>
      match u with
      | LfSourceUnit.WaveformPitch =>
          (context.pitch * context.pitch_bend, LfSource.Unit u)
      | LfSourceUnit.Wavelength =>
          ((context.pitch * context.pitch_bend)⁻¹, LfSource.Unit u)
  | LfSource.Expr e =>
      let (v, e2) := LfSourceExpr.read_block fns context e
      (v, LfSource.Expr e2)

/-- One-block evaluation of a compiled `LfSourceExpr`
(`src/microwave/src/magnetron/source.rs`, including
`create_scaled_value_automation` and `create_oscillator_automation`). -/
def LfSourceExpr.read_block {C : Type} (fns : OscillatorKind → ℚ → ℚ)
    (context : AutomationContext C) : LfSourceExpr C → ℚ × LfSourceExpr C
  | LfSourceExpr.Add a b =>
      let (va, a2) := LfSource.read_block fns context a
      let (vb, b2) := LfSource.read_block fns context b
      (va + vb, LfSourceExpr.Add a2 b2)
  | LfSourceExpr.Mul a b =>
      let (va, a2) := LfSource.read_block fns context a
      let (vb, b2) := LfSource.read_block fns context b
      (va * vb, LfSourceExpr.Mul a2 b2)
  | LfSourceExpr.Oscillator kind phase frequency baseline amplitude =>
      let (f, frequency2) := LfSource.read_block fns context frequency
      let (b, baseline2) := LfSource.read_block fns context baseline
      let (a, amplitude2) := LfSource.read_block fns context amplitude
      let signal := fns kind phase
      let phase2 := Int.fract (phase + f * context.render_window_secs)
      (b + signal * a,
        LfSourceExpr.Oscillator kind phase2 frequency2 baseline2 amplitude2)
  | LfSourceExpr.Envelope name from_ to_ =>
      let (vf, from2) := LfSource.read_block fns context from_
      let (vt, to2) := LfSource.read_block fns context to_
      (vf + context.envelope_value name * (vt - vf),
        LfSourceExpr.Envelope name from2 to2)
  | LfSourceExpr.Time start_ end_ from_ to_ =>
      let (s, start2) := LfSource.read_block fns context start_
      let (e, end2) := LfSource.read_block fns context end_
      let (vf, from2) := LfSource.read_block fns context from_
      let (vt, to2) := LfSource.read_block fns context to_
      let curr_time := context.secs_since_pressed
      let value :=
        if curr_time ≤ s ∧ curr_time ≤ e then vf
        else if curr_time ≥ s ∧ curr_time ≥ e then vt
        else vf + (vt - vf) * (curr_time - s) / (e - s)
      (value, LfSourceExpr.Time start2 end2 from2 to2)
  | LfSourceExpr.Property kind from_ to_ =>
      let (vf, from2) := LfSource.read_block fns context from_
      let (vt, to2) := LfSource.read_block fns context to_
      let p :=
        match kind with
        | Property.Velocity => context.velocity
        | Property.KeyPressure => context.pressure
      (vf + p * (vt - vf), LfSourceExpr.Property kind from2 to2)
  | LfSourceExpr.Control controller from_ to_ =>
      let (vf, from2) := LfSource.read_block fns context from_
      let (vt, to2) := LfSource.read_block fns context to_
      (vf + context.controller_value controller * (vt - vf),
        LfSourceExpr.Control controller from2 to2)

end

/-! ### Deserialization of `LfSource`

`LfSource::deserialize` (`src/microwave/src/magnetron/source.rs`) feeds
`deserialize_any` into `LfSourceVisitor`, which accepts a float
(`visit_f64`), a unit-variant string (`visit_str` → `LfSourceUnit`) or a map
(`visit_map` → derived `LfSourceExpr::deserialize`).  The input is modelled
as an already-parsed YAML value tree; the dispatch of `serde`/`serde_yaml`
(not part of this repository) is modelled from the error strings pinned by
the source's own tests (`source.rs`, mod `tests`), without source locations.
Duplicate map keys resolve to the first occurrence and unknown struct fields
are ignored, as in `serde`'s defaults. -/

/-- A parsed YAML value (the input shapes `serde_yaml` can hand to a
deserializer). -/
inductive Yaml where
  | float (v : ℚ)
  | int (v : ℤ)
  | str (s : String)
  | bool (b : Bool)
  | unit
  | seq (items : List Yaml)
  | map (entries : List (String × Yaml))

/-- The `expecting` text of `LfSourceVisitor`
(`src/microwave/src/magnetron/source.rs`). -/
def lf_expecting : String :=
  "float value, unit expression or nested LF source expression"

/-- `serde`'s `invalid_type` error text. -/
def invalid_type (unexp exp : String) : String :=
  "invalid type: " ++ unexp ++ ", expected " ++ exp

/-- `serde`'s `unknown_variant` error text. -/
def unknown_variant (v exp : String) : String :=
  "unknown variant `" ++ v ++ "`, expected " ++ exp

/-- Field access in a struct-variant map: first occurrence of the field, or
`serde`'s `missing field` error. -/
def parse_field (fields : List (String × Yaml)) (name : String) :
    Except String Yaml :=
  match fields with
  | [] => Except.error ("missing field `" ++ name ++ "`")
  | (k, v) :: rest => if k = name then Except.ok v else parse_field rest name

/-- An `f64` struct field (`phase`); `serde_yaml` accepts floats and
integers for a float field. -/
def parse_f64_field (fields : List (String × Yaml)) (name : String) :
    Except String ℚ := do
  match ← parse_field fields name with
  | Yaml.float v => Except.ok v
  | Yaml.int v => Except.ok (v : ℚ)
  | _ => Except.error (invalid_type "value" "f64")

/-- A `String` struct field (`name`). -/
def parse_string_field (fields : List (String × Yaml)) (name : String) :
    Except String String := do
  match ← parse_field fields name with
  | Yaml.str s => Except.ok s
  | _ => Except.error (invalid_type "value" "a string")

/-- The `kind: OscillatorKind` struct field (derived unit-variant enum). -/
def parse_kind_field (fields : List (String × Yaml)) :
    Except String OscillatorKind := do
  match ← parse_field fields "kind" with
  | Yaml.str "Sin" => Except.ok OscillatorKind.Sin
  | Yaml.str "Sin3" => Except.ok OscillatorKind.Sin3
  | Yaml.str "Triangle" => Except.ok OscillatorKind.Triangle
  | Yaml.str "Square" => Except.ok OscillatorKind.Square
  | Yaml.str "Sawtooth" => Except.ok OscillatorKind.Sawtooth
  | Yaml.str s =>
      Except.error (unknown_variant s
        "one of `Sin`, `Sin3`, `Triangle`, `Square`, `Sawtooth`")
  | _ => Except.error (invalid_type "value" "enum OscillatorKind")

/-- The `kind: Property` struct field (derived unit-variant enum). -/
def parse_property_field (fields : List (String × Yaml)) :
    Except String Property := do
  match ← parse_field fields "kind" with
  | Yaml.str "Velocity" => Except.ok Property.Velocity
  | Yaml.str "KeyPressure" => Except.ok Property.KeyPressure
  | Yaml.str s =>
      Except.error (unknown_variant s "`Velocity` or `KeyPressure`")
  | _ => Except.error (invalid_type "value" "enum Property")

mutual

/-- `<LfSource as Deserialize>::deserialize`
(`src/microwave/src/magnetron/source.rs`, `LfSourceVisitor`):
`deserialize_any` dispatch over the input shape.  `parseC` deserializes the
controller type `C` of the `Control` variant. -/
def LfSource.deserialize {C : Type} (parseC : Yaml → Except String C) :
    Yaml → Except String (LfSource C)
  | Yaml.float v => Except.ok (LfSource.Value v)
  | Yaml.int v =>
      Except.error (invalid_type ("integer `" ++ toString v ++ "`") lf_expecting)
  | Yaml.bool b =>
      Except.error
        (invalid_type ("boolean `" ++ (if b then "true" else "false") ++ "`")
          lf_expecting)
  | Yaml.unit => Except.error (invalid_type "unit value" lf_expecting)
  | Yaml.seq _ => Except.error (invalid_type "sequence" lf_expecting)
  | Yaml.str s =>
      if s = "WaveformPitch" then
        Except.ok (LfSourceUnit.wrap LfSourceUnit.WaveformPitch)
      else if s = "Wavelength" then
        Except.ok (LfSourceUnit.wrap LfSourceUnit.Wavelength)
      else
        Except.error (unknown_variant s "`WaveformPitch` or `Wavelength`")
  | Yaml.map [] => Except.error "invalid type: map, expected map with a single key"
  | Yaml.map ((tag, content) :: _) =>
      match LfSourceExpr.deserialize parseC tag content with
      | Except.ok e => Except.ok (LfSourceExpr.wrap e)
      | Except.error msg => Except.error msg

/-- Derived `LfSourceExpr::deserialize` applied to a variant tag and its
content (via `serde`'s `MapAccessDeserializer`): dispatch on the variant
name, unknown names give `serde`'s `unknown_variant` error. -/
def LfSourceExpr.deserialize {C : Type} (parseC : Yaml → Except String C)
    (tag : String) (content : Yaml) : Except String (LfSourceExpr C) :=
  if tag = "Add" then deserialize_add parseC content
  else if tag = "Mul" then deserialize_mul parseC content
  else if tag = "Oscillator" then deserialize_oscillator parseC content
  else if tag = "Envelope" then deserialize_envelope parseC content
  else if tag = "Time" then deserialize_time parseC content
  else if tag = "Property" then deserialize_property parseC content
  else if tag = "Control" then deserialize_control parseC content
  else
    Except.error (unknown_variant tag
      "one of `Add`, `Mul`, `Oscillator`, `Envelope`, `Time`, `Property`, `Control`")

/-- The `Add(LfSource, LfSource)` tuple variant: a two-element sequence. -/
def deserialize_add {C : Type} (parseC : Yaml → Except String C)
    (content : Yaml) : Except String (LfSourceExpr C) :=
  match content with
  | Yaml.seq [a, b] => do
      let x ← LfSource.deserialize parseC a
      let y ← LfSource.deserialize parseC b
      Except.ok (LfSourceExpr.Add x y)
  | Yaml.seq items =>
      Except.error ("invalid length " ++ toString items.length ++
        ", expected tuple variant LfSourceExpr::Add with 2 elements")
  | _ => Except.error (invalid_type "value" "tuple variant LfSourceExpr::Add")

/-- The `Mul(LfSource, LfSource)` tuple variant: a two-element sequence. -/
def deserialize_mul {C : Type} (parseC : Yaml → Except String C)
    (content : Yaml) : Except String (LfSourceExpr C) :=
  match content with
  | Yaml.seq [a, b] => do
      let x ← LfSource.deserialize parseC a
      let y ← LfSource.deserialize parseC b
      Except.ok (LfSourceExpr.Mul x y)
  | Yaml.seq items =>
      Except.error ("invalid length " ++ toString items.length ++
        ", expected tuple variant LfSourceExpr::Mul with 2 elements")
  | _ => Except.error (invalid_type "value" "tuple variant LfSourceExpr::Mul")

/-- The `Oscillator{kind, phase, frequency, baseline, amplitude}` struct
variant. -/
def deserialize_oscillator {C : Type} (parseC : Yaml → Except String C)
    (content : Yaml) : Except String (LfSourceExpr C) :=
  match content with
  | Yaml.map fields => do
      let kind ← parse_kind_field fields
      let phase ← parse_f64_field fields "phase"
      let frequency ← parse_lf_field parseC fields "frequency"
      let baseline ← parse_lf_field parseC fields "baseline"
      let amplitude ← parse_lf_field parseC fields "amplitude"
      Except.ok (LfSourceExpr.Oscillator kind phase frequency baseline amplitude)
  | _ =>
      Except.error (invalid_type "value" "struct variant LfSourceExpr::Oscillator")

/-- The `Envelope{name, from, to}` struct variant. -/
def deserialize_envelope {C : Type} (parseC : Yaml → Except String C)
    (content : Yaml) : Except String (LfSourceExpr C) :=
  match content with
  | Yaml.map fields => do
      let name ← parse_string_field fields "name"
      let from_ ← parse_lf_field parseC fields "from"
      let to_ ← parse_lf_field parseC fields "to"
      Except.ok (LfSourceExpr.Envelope name from_ to_)
  | _ =>
      Except.error (invalid_type "value" "struct variant LfSourceExpr::Envelope")

/-- The `Time{start, end, from, to}` struct variant. -/
def deserialize_time {C : Type} (parseC : Yaml → Except String C)
    (content : Yaml) : Except String (LfSourceExpr C) :=
  match content with
  | Yaml.map fields => do
      let start_ ← parse_lf_field parseC fields "start"
      let end_ ← parse_lf_field parseC fields "end"
      let from_ ← parse_lf_field parseC fields "from"
      let to_ ← parse_lf_field parseC fields "to"
      Except.ok (LfSourceExpr.Time start_ end_ from_ to_)
  | _ =>
      Except.error (invalid_type "value" "struct variant LfSourceExpr::Time")

/-- The `Property{kind, from, to}` struct variant. -/
def deserialize_property {C : Type} (parseC : Yaml → Except String C)
    (content : Yaml) : Except String (LfSourceExpr C) :=
  match content with
  | Yaml.map fields => do
      let kind ← parse_property_field fields
      let from_ ← parse_lf_field parseC fields "from"
      let to_ ← parse_lf_field parseC fields "to"
      Except.ok (LfSourceExpr.Property kind from_ to_)
  | _ =>
      Except.error (invalid_type "value" "struct variant LfSourceExpr::Property")

/-- The `Control{controller, from, to}` struct variant; the controller type
is deserialized by `parseC`. -/
def deserialize_control {C : Type} (parseC : Yaml → Except String C)
    (content : Yaml) : Except String (LfSourceExpr C) :=
  match content with
  | Yaml.map fields => do
      let controller ← (← parse_field fields "controller") |> parseC
      let from_ ← parse_lf_field parseC fields "from"
      let to_ ← parse_lf_field parseC fields "to"
      Except.ok (LfSourceExpr.Control controller from_ to_)
  | _ =>
      Except.error (invalid_type "value" "struct variant LfSourceExpr::Control")

/-- An `LfSource` struct field: field access followed by the nested
recursive deserialization. -/
def parse_lf_field {C : Type} (parseC : Yaml → Except String C)
    (fields : List (String × Yaml)) (name : String) :
    Except String (LfSource C) :=
  match fields with
  | [] => Except.error ("missing field `" ++ name ++ "`")
  | (k, v) :: rest =>
      if k = name then LfSource.deserialize parseC v
      else parse_lf_field parseC rest name

end

end Magnetron

/-- The number of data bytes `from_raw_message` requires after the status
byte: one for program-change (`0b1100`) and channel-pressure (`0b1101`),
two for every other channel-message code. -/
def required_data_bytes (action : Nat) : Nat :=
  if action = PROGRAM_CHANGE ∨ action = CHANNEL_PRESSURE then 1 else 2

end Tune

namespace Tune

/-! # Theorems -/

/-- **C7** — For every monophonic message type,
`MidiTarget::send_monophonic_message` hands exactly `num_channels` channel
messages to the handler, one for every tuner channel `i` in
`[0, num_channels)` in increasing order, each carrying the same message type
on MIDI channel `(first_channel + i) % 16`. -/
theorem send_monophonic_message_broadcasts (t : MidiTarget)
    (mt : ChannelMessageType) :
    t.send_monophonic_message mt =
      (List.range t.num_channels).map
        (fun i => MidiTunerMessage.channel ⟨(t.first_channel + i) % 16, mt⟩) := by
  unfold MidiTarget.send_monophonic_message MidiTarget.send MidiTarget.midi_channel
    ChannelMessageType.in_channel
  have h16 : ∀ i : Nat, (i + t.first_channel) % 16 < 16 :=
    fun i => Nat.mod_lt _ (by omega)
  simp only [h16, if_pos]
  rw [← List.map_eq_flatMap]
  exact List.map_congr_left (fun i _ => by rw [Nat.add_comm])

/-- **C9** — Round-trip of MIDI note messages: for every `channel < 16`,
`key < 128` and `velocity < 128`, `ChannelMessage::from_raw_message` applied
to the 3-byte array produced by `note_on(channel, key, velocity)` returns
`Some` `ChannelMessage` with the same channel and `NoteOn` message type with
the same key and velocity, and likewise `note_off` round-trips to `NoteOff`. -/
theorem note_on_off_roundtrip (channel key velocity : Nat)
    (hc : channel < 16) (hk : key < 128) (hv : velocity < 128) :
    ChannelMessage.from_raw_message (Cli.note_on channel key velocity) =
      some ⟨channel, ChannelMessageType.NoteOn key velocity⟩ ∧
    ChannelMessage.from_raw_message (Cli.note_off channel key velocity) =
      some ⟨channel, ChannelMessageType.NoteOff key velocity⟩ := by
  have hon : Cli.channel_message NOTE_ON channel = 144 + channel := by
    unfold Cli.channel_message NOTE_ON
    interval_cases channel <;> rfl
  have hoff : Cli.channel_message NOTE_OFF channel = 128 + channel := by
    unfold Cli.channel_message NOTE_OFF
    interval_cases channel <;> rfl
  constructor
  · unfold Cli.note_on
    rw [hon]
    unfold ChannelMessage.from_raw_message
    have ha : (144 + channel) / 16 = 9 := by omega
    have hm : (144 + channel) % 16 = channel := by omega
    simp [ha, hm, NOTE_OFF, NOTE_ON]
  · unfold Cli.note_off
    rw [hoff]
    unfold ChannelMessage.from_raw_message
    have ha : (128 + channel) / 16 = 8 := by omega
    have hm : (128 + channel) % 16 = channel := by omega
    simp [ha, hm, NOTE_OFF]

/-- Witness for C9 at `channel = 7`, `key = 88`, `velocity = 99`
(the values of the source's `parse_note_off`/`parse_note_on` tests). -/
theorem note_on_off_roundtrip_witness :
    ChannelMessage.from_raw_message (Cli.note_on 7 88 99) =
      some ⟨7, ChannelMessageType.NoteOn 88 99⟩ ∧
    ChannelMessage.from_raw_message (Cli.note_off 7 88 99) =
      some ⟨7, ChannelMessageType.NoteOff 88 99⟩ :=
  note_on_off_roundtrip 7 88 99 (by decide) (by decide) (by decide)

set_option maxHeartbeats 1000000 in
/-- **C10** — `ChannelMessage::from_raw_message` is total on every byte slice
(all indexing goes through `Option`): it returns `None` exactly when the
slice is empty, the high nibble of the status byte is not one of the seven
channel-message codes `0b1000`–`0b1110`, or the slice is shorter than the
number of data bytes the message type requires; for a pitch-bend message it
returns `value = data1 + 128·data2`. -/
theorem from_raw_message_none_iff (message : List Nat)
    (hbytes : ∀ b ∈ message, b < 256) :
    (ChannelMessage.from_raw_message message = none ↔
      message = [] ∨
      ∃ b0 rest, message = b0 :: rest ∧
        (b0 / 16 < 8 ∨ 14 < b0 / 16 ∨
          rest.length < required_data_bytes (b0 / 16))) ∧
    (∀ b0 d1 d2 rest, message = b0 :: d1 :: d2 :: rest →
      b0 / 16 = PITCH_BEND_CHANGE →
      ChannelMessage.from_raw_message message =
        some ⟨b0 % 16, ChannelMessageType.PitchBendChange (d1 + d2 * 128)⟩) := by
  rcases message with _ | ⟨b0, rest⟩
  · simp [ChannelMessage.from_raw_message]
  · have h256 : b0 < 256 := hbytes b0 (by simp)
    have hdiv : b0 / 16 < 16 := by omega
    rcases rest with _ | ⟨d1, rest2⟩
    · interval_cases hb : b0 / 16 <;>
        simp [ChannelMessage.from_raw_message, required_data_bytes, hb,
          NOTE_OFF, NOTE_ON, POLYPHONIC_KEY_PRESSURE, CONTROL_CHANGE,
          PROGRAM_CHANGE, CHANNEL_PRESSURE, PITCH_BEND_CHANGE] <;>
        exact ⟨b0, _, ⟨rfl, rfl⟩, by simp [hb]⟩
    · rcases rest2 with _ | ⟨d2, rest3⟩ <;>
        · interval_cases hb : b0 / 16 <;>
            simp [ChannelMessage.from_raw_message, required_data_bytes, hb,
              NOTE_OFF, NOTE_ON, POLYPHONIC_KEY_PRESSURE, CONTROL_CHANGE,
              PROGRAM_CHANGE, CHANNEL_PRESSURE, PITCH_BEND_CHANGE] <;>
            first
            | exact ⟨b0, _, ⟨rfl, rfl⟩, by simp [hb]⟩
            | (intro x y z r h1 h2 h3 h4; omega)
            | (refine ⟨⟨b0, _, ⟨rfl, rfl⟩, by simp [hb]⟩, ?_⟩;
                intro x y z r h1 h2 h3 h4; omega)

/-- Witness for C10 at the source's `parse_pitch_bend_change` test input
`[0b11101101, 22, 33]`: parsed, channel `13`, value `22 + 33·128 = 4246`. -/
theorem from_raw_message_none_iff_witness :
    ChannelMessage.from_raw_message [0b11101101, 22, 33] =
      some ⟨13, ChannelMessageType.PitchBendChange (22 + 33 * 128)⟩ :=
  (from_raw_message_none_iff [0b11101101, 22, 33] (by decide)).2
    0b11101101 22 33 [] rfl (by decide)

/-- **C3** — For every `WaveformSpec` and envelope registry,
`WaveformSpec::use_creator` returns the compiled stages in exactly the order
of the spec's stage list, never reordered; when the referenced envelope name
is present in the registry, exactly one envelope stage is appended after all
of them (result length `= stages.len() + 1`), and when the name is absent a
warning is logged and the envelope stage is omitted (result length
`= stages.len()`). -/
theorem use_creator_appends_envelope {A E S : Type}
    (w : Magnetron.WaveformSpec A) (stage_uc : A → S) (env_uc : E → S)
    (envelopes : List (String × E)) :
    (w.use_creator stage_uc env_uc envelopes).1 =
      w.stages.map stage_uc ++ (envelopes.lookup w.envelope).toList.map env_uc ∧
    (∀ e, envelopes.lookup w.envelope = some e →
      (w.use_creator stage_uc env_uc envelopes).1 =
        w.stages.map stage_uc ++ [env_uc e] ∧
      (w.use_creator stage_uc env_uc envelopes).1.length = w.stages.length + 1 ∧
      (w.use_creator stage_uc env_uc envelopes).2 = []) ∧
    (envelopes.lookup w.envelope = none →
      (w.use_creator stage_uc env_uc envelopes).1 = w.stages.map stage_uc ∧
      (w.use_creator stage_uc env_uc envelopes).1.length = w.stages.length ∧
      (w.use_creator stage_uc env_uc envelopes).2 =
        ["Unknown envelope " ++ w.envelope]) := by
  unfold Magnetron.WaveformSpec.use_creator
  cases h : envelopes.lookup w.envelope <;> simp [h]

/-- Witness for C3: two stages and a registry hit yield the two compiled
stages followed by the compiled envelope and no warning; a registry miss
yields only the two stages plus the warning. -/
theorem use_creator_appends_envelope_witness :
    (Magnetron.WaveformSpec.use_creator (E := Nat) (S := Nat)
        ⟨"w", "env", [1, 2]⟩ (fun s => s * 10) (fun e => e) [("env", 7)]).1 =
      [10, 20, 7] ∧
    (Magnetron.WaveformSpec.use_creator (E := Nat) (S := Nat)
        ⟨"w", "env", [1, 2]⟩ (fun s => s * 10) (fun e => e) []).1 = [10, 20] ∧
    (Magnetron.WaveformSpec.use_creator (E := Nat) (S := Nat)
        ⟨"w", "env", [1, 2]⟩ (fun s => s * 10) (fun e => e) []).2 =
      ["Unknown envelope env"] := by
  have h1 := (use_creator_appends_envelope (E := Nat) (S := Nat)
    ⟨"w", "env", [1, 2]⟩ (fun s => s * 10) (fun e => e) [("env", 7)]).2.1 7 (by rfl)
  have h2 := (use_creator_appends_envelope (E := Nat) (S := Nat)
    ⟨"w", "env", [1, 2]⟩ (fun s => s * 10) (fun e => e) []).2.2 (by rfl)
  exact ⟨by simpa using h1.1, by simpa using h2.1, by simpa using h2.2.2⟩

/-- **C4 (counterexample)** — the claim states that for `start ≥ end` the
`Time` automation "degenerates to `from` while `t ≤ start ∧ t ≤ end` and `to`
otherwise".  At `start = 2`, `end = 0`, `from = 0`, `to = 1` and
`t = secs_since_pressed = 1` the condition `t ≤ start ∧ t ≤ end` fails, so
the claim predicts `to = 1`; the code falls through to the interpolation
branch and returns `1/2`. -/
theorem time_degenerate_counterexample :
    ((Magnetron.LfSourceExpr.Time (C := Unit) (Magnetron.LfSource.Value 2)
        (Magnetron.LfSource.Value 0) (Magnetron.LfSource.Value 0)
        (Magnetron.LfSource.Value 1)).read_block (fun _ _ => 0)
      { pitch := 0, pitch_bend := 0, secs_since_pressed := 1, velocity := 0,
        pressure := 0, render_window_secs := 0, envelope_value := fun _ => 0,
        controller_value := fun _ => 0 }).1 = 1 / 2 ∧
    ¬ ((Magnetron.LfSourceExpr.Time (C := Unit) (Magnetron.LfSource.Value 2)
        (Magnetron.LfSource.Value 0) (Magnetron.LfSource.Value 0)
        (Magnetron.LfSource.Value 1)).read_block (fun _ _ => 0)
      { pitch := 0, pitch_bend := 0, secs_since_pressed := 1, velocity := 0,
        pressure := 0, render_window_secs := 0, envelope_value := fun _ => 0,
        controller_value := fun _ => 0 }).1 = 1 := by
  constructor
  · simp [Magnetron.LfSourceExpr.read_block, Magnetron.LfSource.read_block]
    norm_num
  · simp [Magnetron.LfSourceExpr.read_block, Magnetron.LfSource.read_block]
    norm_num

/-- **C4 (amended)** — The automation compiled from
`LfSourceExpr::Time{start, end, from, to}`, with `t = secs_since_pressed`,
returns `from` when `t ≤ start ∧ t ≤ end`; otherwise returns `to` when
`t ≥ start ∧ t ≥ end`; otherwise returns
`from + (to − from)·(t − start)/(end − start)` — also when `start > end` and
`end < t < start`, where the claim's degenerate clause wrongly predicted
`to`.  In particular, for `start < end` it returns `from` at `t = start`,
`to` at `t = end`, and interpolates linearly in between. -/
theorem time_automation_semantics {C : Type}
    (fns : Magnetron.OscillatorKind → ℚ → ℚ)
    (ctx : Magnetron.AutomationContext C)
    (start_ end_ from_ to_ : Magnetron.LfSource C) :
    let s := (start_.read_block fns ctx).1
    let e := (end_.read_block fns ctx).1
    let f := (from_.read_block fns ctx).1
    let t0 := (to_.read_block fns ctx).1
    let t := ctx.secs_since_pressed
    let v := ((Magnetron.LfSourceExpr.Time start_ end_ from_ to_).read_block
      fns ctx).1
    (t ≤ s ∧ t ≤ e → v = f) ∧
    (¬(t ≤ s ∧ t ≤ e) → s ≤ t ∧ e ≤ t → v = t0) ∧
    (¬(t ≤ s ∧ t ≤ e) → ¬(s ≤ t ∧ e ≤ t) →
      v = f + (t0 - f) * (t - s) / (e - s)) ∧
    (s < e → t = s → v = f) ∧
    (s < e → t = e → v = t0) ∧
    (s < e → s < t → t < e → v = f + (t0 - f) * (t - s) / (e - s)) := by
  intro s e f t0 t v
  have hv : v = if t ≤ s ∧ t ≤ e then f
      else if s ≤ t ∧ e ≤ t then t0
      else f + (t0 - f) * (t - s) / (e - s) := by
    simp only [v, Magnetron.LfSourceExpr.read_block]
  have h1 : t ≤ s ∧ t ≤ e → v = f := fun h => by rw [hv, if_pos h]
  have h2 : ¬(t ≤ s ∧ t ≤ e) → s ≤ t ∧ e ≤ t → v = t0 := fun hn h => by
    rw [hv, if_neg hn, if_pos h]
  have h3 : ¬(t ≤ s ∧ t ≤ e) → ¬(s ≤ t ∧ e ≤ t) →
      v = f + (t0 - f) * (t - s) / (e - s) := fun hn hn2 => by
    rw [hv, if_neg hn, if_neg hn2]
  refine ⟨h1, h2, h3, ?_, ?_, ?_⟩
  · intro hse ht
    exact h1 ⟨le_of_eq ht, by linarith⟩
  · intro hse ht
    exact h2 (fun hc => by linarith [hc.1]) ⟨by linarith, le_of_eq ht.symm⟩
  · intro hse hst hte
    exact h3 (fun hc => by linarith [hc.1]) (fun hc => by linarith [hc.2])

/-- Witness for C4 at `start = 0`, `end = 2`, `from = 0`, `to = 1`,
`t = 1`: strictly inside the ramp, the value is the midpoint `1/2`. -/
theorem time_automation_semantics_witness :
    ((Magnetron.LfSourceExpr.Time (C := Unit) (Magnetron.LfSource.Value 0)
        (Magnetron.LfSource.Value 2) (Magnetron.LfSource.Value 0)
        (Magnetron.LfSource.Value 1)).read_block (fun _ _ => 0)
      { pitch := 0, pitch_bend := 0, secs_since_pressed := 1, velocity := 0,
        pressure := 0, render_window_secs := 0, envelope_value := fun _ => 0,
        controller_value := fun _ => 0 }).1 = 1 / 2 := by
  have h := (time_automation_semantics (C := Unit) (fun _ _ => 0)
    { pitch := 0, pitch_bend := 0, secs_since_pressed := 1, velocity := 0,
      pressure := 0, render_window_secs := 0, envelope_value := fun _ => 0,
      controller_value := fun _ => 0 }
    (Magnetron.LfSource.Value 0) (Magnetron.LfSource.Value 2)
    (Magnetron.LfSource.Value 0) (Magnetron.LfSource.Value 1)).2.2.2.2.2
  simp only [Magnetron.LfSource.read_block] at h
  rw [h (by norm_num) (by norm_num) (by norm_num)]
  norm_num

/-- **C5** — For every `LfSourceExpr::Oscillator{kind, phase, frequency,
baseline, amplitude}`, each per-block evaluation of the compiled automation
returns `baseline + fn_kind(phase)·amplitude` computed from the phase value
held before the update, and then replaces the stored phase by
`(phase + frequency·render_window_secs)` reduced modulo 1 (`rem_euclid`), so
the stored phase lies in `[0, 1)` after every evaluation. -/
theorem oscillator_automation_step {C : Type}
    (fns : Magnetron.OscillatorKind → ℚ → ℚ)
    (ctx : Magnetron.AutomationContext C) (kind : Magnetron.OscillatorKind)
    (phase : ℚ) (frequency baseline amplitude : Magnetron.LfSource C) :
    let f := (frequency.read_block fns ctx).1
    let b := (baseline.read_block fns ctx).1
    let a := (amplitude.read_block fns ctx).1
    let p2 := Int.fract (phase + f * ctx.render_window_secs)
    let r := (Magnetron.LfSourceExpr.Oscillator kind phase frequency baseline
      amplitude).read_block fns ctx
    r.1 = b + fns kind phase * a ∧
    r.2 = Magnetron.LfSourceExpr.Oscillator kind p2
      (frequency.read_block fns ctx).2 (baseline.read_block fns ctx).2
      (amplitude.read_block fns ctx).2 ∧
    0 ≤ p2 ∧ p2 < 1 := by
  refine ⟨rfl, rfl, Int.fract_nonneg _, Int.fract_lt_one _⟩

/-- **C8** — For every automation context in which the product of the
waveform pitch and the pitch-bend ratio is nonzero, the automation compiled
from `LfSource::Unit(Wavelength)` evaluates to the reciprocal of the
automation compiled from `LfSource::Unit(WaveformPitch)`: the `WaveformPitch`
value equals `properties.pitch × pitch_bend` in Hz and the product of the
two evaluations equals `1`. -/
theorem wavelength_reciprocal_of_waveform_pitch {C : Type}
    (fns : Magnetron.OscillatorKind → ℚ → ℚ)
    (ctx : Magnetron.AutomationContext C)
    (h : ctx.pitch * ctx.pitch_bend ≠ 0) :
    ((Magnetron.LfSource.Unit (C := C)
        Magnetron.LfSourceUnit.WaveformPitch).read_block fns ctx).1 =
      ctx.pitch * ctx.pitch_bend ∧
    ((Magnetron.LfSource.Unit (C := C)
        Magnetron.LfSourceUnit.Wavelength).read_block fns ctx).1 =
      (ctx.pitch * ctx.pitch_bend)⁻¹ ∧
    ((Magnetron.LfSource.Unit (C := C)
        Magnetron.LfSourceUnit.WaveformPitch).read_block fns ctx).1 *
      ((Magnetron.LfSource.Unit (C := C)
        Magnetron.LfSourceUnit.Wavelength).read_block fns ctx).1 = 1 :=
  ⟨rfl, rfl, mul_inv_cancel₀ h⟩

/-- Witness for C8 at `pitch = 440 Hz`, `pitch_bend = 1`. -/
theorem wavelength_reciprocal_of_waveform_pitch_witness :
    ((Magnetron.LfSource.Unit (C := Unit)
        Magnetron.LfSourceUnit.WaveformPitch).read_block (fun _ _ => 0)
      { pitch := 440, pitch_bend := 1, secs_since_pressed := 0, velocity := 0,
        pressure := 0, render_window_secs := 0, envelope_value := fun _ => 0,
        controller_value := fun _ => 0 }).1 *
    ((Magnetron.LfSource.Unit (C := Unit)
        Magnetron.LfSourceUnit.Wavelength).read_block (fun _ _ => 0)
      { pitch := 440, pitch_bend := 1, secs_since_pressed := 0, velocity := 0,
        pressure := 0, render_window_secs := 0, envelope_value := fun _ => 0,
        controller_value := fun _ => 0 }).1 = 1 :=
  (wavelength_reciprocal_of_waveform_pitch (C := Unit) (fun _ _ => 0)
    { pitch := 440, pitch_bend := 1, secs_since_pressed := 0, velocity := 0,
      pressure := 0, render_window_secs := 0, envelope_value := fun _ => 0,
      controller_value := fun _ => 0 } (by norm_num)).2.2

/-- **C1** — For each of the four `AotMidiTuner` constructors
(`single_note_tuning_change`, `scale_octave_tuning`, `channel_fine_tuning`,
`pitch_bend`): if the computed per-channel tuning partition needs `n` output
channels and `n` exceeds the configured `num_channels` of the `MidiTarget`,
the constructor returns `Err(n)` and hands no message to the handler;
otherwise it returns `Ok` and emits the tuning-setup messages for every used
channel — the handed message list is the in-order concatenation over tuner
channels `0, …, n-1` of that channel's setup messages, each nonempty. -/
theorem aot_constructors_check_channels {T : Type} (t : MidiTarget) (tn : T)
    (ds1 : List FullKeyboardDetuning) (ds2 : List ScaleOctaveTuning)
    (ds3 ds4 : List Ratio) (device_id first_tuning_program : Nat)
    (format : ScaleOctaveTuningFormat) :
    (ds1.length > t.num_channels →
      AotMidiTuner.single_note_tuning_change t tn ds1 device_id
        first_tuning_program = Except.error ds1.length) ∧
    (ds1.length ≤ t.num_channels →
      AotMidiTuner.single_note_tuning_change t tn ds1 device_id
          first_tuning_program =
        Except.ok (⟨t, tn⟩, ds1.enum.flatMap (fun p =>
          tuning_program_change (t.midi_channel p.1)
              (t.tuning_program p.1 first_tuning_program) ++
            [p.2.to_mts_format device_id
              (t.tuning_program p.1 first_tuning_program)])) ∧
      ∀ p ∈ ds1.enum,
        tuning_program_change (t.midi_channel p.1)
            (t.tuning_program p.1 first_tuning_program) ++
          [p.2.to_mts_format device_id
            (t.tuning_program p.1 first_tuning_program)] ≠ []) ∧
    (ds2.length > t.num_channels →
      AotMidiTuner.scale_octave_tuning t tn ds2 device_id format =
        Except.error ds2.length) ∧
    (ds2.length ≤ t.num_channels →
      AotMidiTuner.scale_octave_tuning t tn ds2 device_id format =
        Except.ok (⟨t, tn⟩, ds2.enum.flatMap (fun p =>
          [p.2.to_mts_format device_id (t.midi_channel p.1) format])) ∧
      ∀ p ∈ ds2.enum,
        ([p.2.to_mts_format device_id (t.midi_channel p.1) format] :
          List MidiTunerMessage) ≠ []) ∧
    (ds3.length > t.num_channels →
      AotMidiTuner.channel_fine_tuning t tn ds3 = Except.error ds3.length) ∧
    (ds3.length ≤ t.num_channels →
      AotMidiTuner.channel_fine_tuning t tn ds3 =
        Except.ok (⟨t, tn⟩, ds3.enum.flatMap (fun p =>
          channel_fine_tuning (t.midi_channel p.1) p.2)) ∧
      ∀ p ∈ ds3.enum, channel_fine_tuning (t.midi_channel p.1) p.2 ≠ []) ∧
    (ds4.length > t.num_channels →
      AotMidiTuner.pitch_bend t tn ds4 = Except.error ds4.length) ∧
    (ds4.length ≤ t.num_channels →
      AotMidiTuner.pitch_bend t tn ds4 =
        Except.ok (⟨t, tn⟩, ds4.enum.flatMap (fun p =>
          [MidiTunerMessage.channel
            ⟨t.midi_channel p.1, pitch_bend_message p.2⟩])) ∧
      ∀ p ∈ ds4.enum,
        ([MidiTunerMessage.channel
          ⟨t.midi_channel p.1, pitch_bend_message p.2⟩] :
            List MidiTunerMessage) ≠ []) := by
  have hch : ∀ i : Nat, t.midi_channel i < 16 :=
    fun i => Nat.mod_lt _ (by omega)
  refine ⟨?_, ?_, ?_, ?_, ?_, ?_, ?_, ?_⟩
  · intro h
    unfold AotMidiTuner.single_note_tuning_change MidiTarget.check_num_channels
    simp [h]
  · intro h
    unfold AotMidiTuner.single_note_tuning_change MidiTarget.check_num_channels
    have h2 : ¬ ds1.length > t.num_channels := by omega
    simp [h2, tuning_program_change]
  · intro h
    unfold AotMidiTuner.scale_octave_tuning MidiTarget.check_num_channels
    simp [h]
  · intro h
    unfold AotMidiTuner.scale_octave_tuning MidiTarget.check_num_channels
    have h2 : ¬ ds2.length > t.num_channels := by omega
    simp [h2]
  · intro h
    unfold AotMidiTuner.channel_fine_tuning MidiTarget.check_num_channels
    simp [h]
  · intro h
    unfold AotMidiTuner.channel_fine_tuning MidiTarget.check_num_channels
    have h2 : ¬ ds3.length > t.num_channels := by omega
    simp [h2, Tune.channel_fine_tuning]
  · intro h
    unfold AotMidiTuner.pitch_bend MidiTarget.check_num_channels
    simp [h]
  · intro h
    unfold AotMidiTuner.pitch_bend MidiTarget.check_num_channels
    have h2 : ¬ ds4.length > t.num_channels := by omega
    simp only [h2, if_neg, ite_false, ChannelMessageType.in_channel]
    have hcong : ds4.enum.flatMap (fun p =>
        match (if t.midi_channel p.1 < 16 then
            some (⟨t.midi_channel p.1, pitch_bend_message p.2⟩ : ChannelMessage)
          else none) with
        | some m => [MidiTunerMessage.channel m]
        | none => []) = ds4.enum.flatMap (fun p =>
        [MidiTunerMessage.channel
          ⟨t.midi_channel p.1, pitch_bend_message p.2⟩]) :=
      List.flatMap_congr (fun p _ => by rw [if_pos (hch p.1)])
    rw [hcong]
    simp

/-- Witness for C1 with one channel configured: an empty partition succeeds
with no messages, while a two-channel pitch-bend partition is rejected with
`Err 2` for a one-channel target. -/
theorem aot_constructors_check_channels_witness :
    AotMidiTuner.pitch_bend (T := Unit) ⟨0, 1⟩ () [] =
      Except.ok (⟨⟨0, 1⟩, ()⟩, []) ∧
    AotMidiTuner.pitch_bend (T := Unit) ⟨0, 1⟩ () [0, 0] =
      Except.error 2 := by
  have h := aot_constructors_check_channels (T := Unit) ⟨0, 1⟩ () [] [] [] []
    0 0 ScaleOctaveTuningFormat.OneByte
  have h2 := aot_constructors_check_channels (T := Unit) ⟨0, 1⟩ () [] [] []
    [0, 0] 0 0 ScaleOctaveTuningFormat.OneByte
  exact ⟨by simpa using (h.2.2.2.2.2.2.2 (by decide)).1,
    h2.2.2.2.2.2.2.1 (by decide)⟩

/-- **C2** — For every call of `JitMidiTuner::note_on` whose key registration
is accepted, the messages handed to the handler within that call appear in
this order: first a note-off for the stopped note when the pooling policy
stopped one, then the tuning-update message(s) — always at least one — for
the allocated channel, then the note-on for the started note; the note-on is
never emitted before the tuning update for its channel. -/
theorem jit_note_on_message_order (s : JitMidiTuner) (channel : Nat)
    (stopped_note : Option Note) (started_note : Note) (detuning : Ratio)
    (velocity : Nat) :
    let cr := s.midi_tuning_creator.create s.target channel started_note detuning
    let off_msgs : List MidiTunerMessage :=
      match stopped_note.bind Note.checked_midi_number with
      | some n => [MidiTunerMessage.channel
          ⟨s.target.midi_channel channel, ChannelMessageType.NoteOff n velocity⟩]
      | none => []
    let on_msgs : List MidiTunerMessage :=
      match started_note.checked_midi_number with
      | some n => [MidiTunerMessage.channel
          ⟨s.target.midi_channel channel, ChannelMessageType.NoteOn n velocity⟩]
      | none => []
    let r := s.note_on
      (RegisterKeyResult.Accepted channel stopped_note started_note detuning)
      velocity
    r.1 = off_msgs ++ cr.1 ++ on_msgs ∧
    cr.1 ≠ [] ∧
    r.2 = { s with midi_tuning_creator := cr.2 } := by
  intro cr off_msgs on_msgs r
  have hch : s.target.midi_channel channel < 16 := Nat.mod_lt _ (by omega)
  have hsend : ∀ mt : ChannelMessageType, s.target.send mt channel =
      [MidiTunerMessage.channel ⟨s.target.midi_channel channel, mt⟩] := by
    intro mt
    unfold MidiTarget.send ChannelMessageType.in_channel
    rw [if_pos hch]
  have hr : r = (off_msgs ++ cr.1 ++ on_msgs,
      { s with midi_tuning_creator := cr.2 }) := by
    show JitMidiTuner.note_on s _ velocity = _
    unfold JitMidiTuner.note_on
    cases hst : stopped_note.bind Note.checked_midi_number <;>
      cases hon : started_note.checked_midi_number <;>
        simp only [hst, hon, hsend, off_msgs, on_msgs, cr]
  refine ⟨by rw [hr], ?_, by rw [hr]⟩
  show (MidiTuningCreator.create _ _ _ _ _).1 ≠ []
  unfold MidiTuningCreator.create
  cases s.midi_tuning_creator <;>
    simp [tuning_program_change, Tune.channel_fine_tuning,
      ChannelMessageType.in_channel, hch]

/-- Witness for C2: a `PitchBend`-mode JIT tuner on 16 channels accepting
note 69 at unison detuning hands over the pitch-bend tuning update and then
the note-on, in that order. -/
theorem jit_note_on_message_order_witness :
    (JitMidiTuner.note_on ⟨⟨0, 16⟩, MidiTuningCreator.PitchBend⟩
      (RegisterKeyResult.Accepted 0 none 69 0) 100).1 =
      [MidiTunerMessage.channel ⟨0, ChannelMessageType.PitchBendChange 0⟩,
       MidiTunerMessage.channel ⟨0, ChannelMessageType.NoteOn 69 100⟩] := by
  have h := (jit_note_on_message_order
    ⟨⟨0, 16⟩, MidiTuningCreator.PitchBend⟩ 0 none 69 0 100).1
  rw [h]
  simp [MidiTuningCreator.create, Note.checked_midi_number, pitch_bend_message,
    MidiTarget.midi_channel, ChannelMessageType.in_channel, Ratio.as_semitones]
  norm_num
  decide

/-- Helper: a successful derived `LfSourceExpr::deserialize` implies the
variant tag is one of the seven known names. -/
theorem lfSourceExpr_deserialize_ok_tag {C : Type}
    (parseC : Magnetron.Yaml → Except String C) (tag : String)
    (content : Magnetron.Yaml) (e : Magnetron.LfSourceExpr C)
    (h : Magnetron.LfSourceExpr.deserialize parseC tag content = Except.ok e) :
    tag ∈ (["Add", "Mul", "Oscillator", "Envelope", "Time", "Property",
      "Control"] : List String) := by
  unfold Magnetron.LfSourceExpr.deserialize at h
  split_ifs at h <;> simp_all

/-- Helper: classification of the inputs on which `LfSource` deserialization
can succeed. -/
theorem lfSource_deserialize_ok_shape {C : Type}
    (parseC : Magnetron.Yaml → Except String C) (y : Magnetron.Yaml)
    (r : Magnetron.LfSource C)
    (h : Magnetron.LfSource.deserialize parseC y = Except.ok r) :
    (∃ v, y = Magnetron.Yaml.float v ∧ r = Magnetron.LfSource.Value v) ∨
    (y = Magnetron.Yaml.str "WaveformPitch" ∨
      y = Magnetron.Yaml.str "Wavelength") ∨
    (∃ tag content rest e, y = Magnetron.Yaml.map ((tag, content) :: rest) ∧
      tag ∈ (["Add", "Mul", "Oscillator", "Envelope", "Time", "Property",
        "Control"] : List String) ∧ r = Magnetron.LfSource.Expr e) := by
  match y with
  | Magnetron.Yaml.float v =>
      left
      refine ⟨v, rfl, ?_⟩
      simp only [Magnetron.LfSource.deserialize] at h
      exact (Except.ok.inj h).symm
  | Magnetron.Yaml.int v => simp [Magnetron.LfSource.deserialize] at h
  | Magnetron.Yaml.bool b => simp [Magnetron.LfSource.deserialize] at h
  | Magnetron.Yaml.unit => simp [Magnetron.LfSource.deserialize] at h
  | Magnetron.Yaml.seq l => simp [Magnetron.LfSource.deserialize] at h
  | Magnetron.Yaml.str s =>
      right; left
      simp only [Magnetron.LfSource.deserialize] at h
      split_ifs at h with h1 h2
      · exact Or.inl (by rw [h1])
      · exact Or.inr (by rw [h2])
  | Magnetron.Yaml.map [] => simp [Magnetron.LfSource.deserialize] at h
  | Magnetron.Yaml.map ((tag, content) :: rest) =>
      right; right
      simp only [Magnetron.LfSource.deserialize] at h
      cases hin : Magnetron.LfSourceExpr.deserialize parseC tag content with
      | ok e =>
          rw [hin] at h
          exact ⟨tag, content, rest, e, rfl,
            lfSourceExpr_deserialize_ok_tag parseC tag content e hin,
            (Except.ok.inj h).symm⟩
      | error msg => rw [hin] at h; exact absurd h (by simp)

/-- **C6 (counterexample)** — the claim states that deserialization succeeds
for every map tagged with one of the seven known `LfSourceExpr` variants;
but the map `{Add: ~}` carries the known tag `Add` and still fails, because
the variant's content (a unit value instead of a two-element sequence) does
not deserialize. -/
theorem lf_source_deserialize_add_unit_counterexample :
    Magnetron.LfSource.deserialize (C := Unit) (fun _ => Except.ok ())
      (Magnetron.Yaml.map [("Add", Magnetron.Yaml.unit)]) =
    Except.error "invalid type: value, expected tuple variant LfSourceExpr::Add" := by
  simp [Magnetron.LfSource.deserialize, Magnetron.LfSourceExpr.deserialize,
    Magnetron.deserialize_add, Magnetron.invalid_type]

/-- **C6 (amended)** — Deserializing an `LfSource` succeeds only for a float
(yielding `LfSource::Value`), one of the strings `WaveformPitch` or
`Wavelength` (yielding `LfSource::Unit`), or a map tagged with one of the
seven known `LfSourceExpr` variants whose variant content itself
deserializes (yielding `LfSource::Expr`); a float or known unit string
always succeeds, a known-tag map succeeds exactly when its content does, and
an integer, a unit/missing value, an unknown unit string, or an unknown
expression variant is a parse error whose message states the expected forms,
e.g. `invalid type: integer `10000`, expected float value, unit expression
or nested LF source expression` (source locations are appended by the YAML
layer, outside this repository). -/
theorem lf_source_deserialize_shapes {C : Type}
    (parseC : Magnetron.Yaml → Except String C) :
    (∀ v : ℚ, Magnetron.LfSource.deserialize parseC (Magnetron.Yaml.float v) =
      Except.ok (Magnetron.LfSource.Value v)) ∧
    (Magnetron.LfSource.deserialize parseC
        (Magnetron.Yaml.str "WaveformPitch") =
      Except.ok (Magnetron.LfSource.Unit
        Magnetron.LfSourceUnit.WaveformPitch)) ∧
    (Magnetron.LfSource.deserialize parseC (Magnetron.Yaml.str "Wavelength") =
      Except.ok (Magnetron.LfSource.Unit Magnetron.LfSourceUnit.Wavelength)) ∧
    (∀ y r, Magnetron.LfSource.deserialize parseC y = Except.ok r →
      (∃ v, y = Magnetron.Yaml.float v ∧ r = Magnetron.LfSource.Value v) ∨
      (y = Magnetron.Yaml.str "WaveformPitch" ∨
        y = Magnetron.Yaml.str "Wavelength") ∨
      (∃ tag content rest e, y = Magnetron.Yaml.map ((tag, content) :: rest) ∧
        tag ∈ (["Add", "Mul", "Oscillator", "Envelope", "Time", "Property",
          "Control"] : List String) ∧ r = Magnetron.LfSource.Expr e)) ∧
    (∀ tag content rest,
      Magnetron.LfSource.deserialize parseC
          (Magnetron.Yaml.map ((tag, content) :: rest)) =
        Except.map Magnetron.LfSourceExpr.wrap
          (Magnetron.LfSourceExpr.deserialize parseC tag content)) ∧
    (∀ n : ℤ, Magnetron.LfSource.deserialize parseC (Magnetron.Yaml.int n) =
      Except.error (Magnetron.invalid_type ("integer `" ++ toString n ++ "`")
        Magnetron.lf_expecting)) ∧
    (Magnetron.LfSource.deserialize parseC Magnetron.Yaml.unit =
      Except.error
        "invalid type: unit value, expected float value, unit expression or nested LF source expression") ∧
    (∀ s : String, s ≠ "WaveformPitch" → s ≠ "Wavelength" →
      Magnetron.LfSource.deserialize parseC (Magnetron.Yaml.str s) =
        Except.error (Magnetron.unknown_variant s
          "`WaveformPitch` or `Wavelength`")) ∧
    (∀ tag content rest,
      tag ∉ (["Add", "Mul", "Oscillator", "Envelope", "Time", "Property",
        "Control"] : List String) →
      Magnetron.LfSource.deserialize parseC
          (Magnetron.Yaml.map ((tag, content) :: rest)) =
        Except.error (Magnetron.unknown_variant tag
          "one of `Add`, `Mul`, `Oscillator`, `Envelope`, `Time`, `Property`, `Control`")) := by
  refine ⟨?_, ?_, ?_, lfSource_deserialize_ok_shape parseC, ?_, ?_, ?_, ?_, ?_⟩
  · intro v
    simp [Magnetron.LfSource.deserialize]
  · simp [Magnetron.LfSource.deserialize, Magnetron.LfSourceUnit.wrap]
  · simp [Magnetron.LfSource.deserialize, Magnetron.LfSourceUnit.wrap]
  · intro tag content rest
    cases hin : Magnetron.LfSourceExpr.deserialize parseC tag content <;>
      simp [Magnetron.LfSource.deserialize, hin, Except.map,
        Magnetron.LfSourceExpr.wrap]
  · intro n
    simp [Magnetron.LfSource.deserialize]
  · simp [Magnetron.LfSource.deserialize, Magnetron.invalid_type,
      Magnetron.lf_expecting]
  · intro s h1 h2
    simp only [Magnetron.LfSource.deserialize]
    rw [if_neg h1, if_neg h2]
  · intro tag content rest hmem
    simp only [List.mem_cons, List.mem_singleton, not_or] at hmem
    obtain ⟨n1, n2, n3, n4, n5, n6, n7, -⟩ := hmem
    have hin : Magnetron.LfSourceExpr.deserialize parseC tag content =
        Except.error (Magnetron.unknown_variant tag
          "one of `Add`, `Mul`, `Oscillator`, `Envelope`, `Time`, `Property`, `Control`") := by
      unfold Magnetron.LfSourceExpr.deserialize
      rw [if_neg n1, if_neg n2, if_neg n3, if_neg n4, if_neg n5, if_neg n6,
        if_neg n7]
    simp [Magnetron.LfSource.deserialize, hin]

/-- Witness for C6 at the inputs of the source's own deserialization tests:
the unknown unit string `InvalidUnit` and the integer `10000` produce the
exact error texts asserted by those tests. -/
theorem lf_source_deserialize_shapes_witness :
    Magnetron.LfSource.deserialize (C := Unit) (fun _ => Except.ok ())
      (Magnetron.Yaml.str "InvalidUnit") =
      Except.error "unknown variant `InvalidUnit`, expected `WaveformPitch` or `Wavelength`" ∧
    Magnetron.LfSource.deserialize (C := Unit) (fun _ => Except.ok ())
      (Magnetron.Yaml.int 10000) =
      Except.error "invalid type: integer `10000`, expected float value, unit expression or nested LF source expression" := by
  have h := lf_source_deserialize_shapes (C := Unit) (fun _ => Except.ok ())
  constructor
  · rw [h.2.2.2.2.2.2.2.1 "InvalidUnit" (by decide) (by decide)]
    rfl
  · rw [h.2.2.2.2.2.1 10000]
    rfl
end Tune
